import Mathlib

/-!
Shallow embedding of the BedrockScanner core (src/Scanner.py; the two other
variants ScannerV2.py and scannerV1.py contain byte-identical copies of the
same core functions).  Network interaction is modelled by an oracle
describing, for each port, what the UDP probe observes: either an exception
(timeout, ICMP unreachable, some other error) or a reply datagram, given as
the list of its byte values.  Bytes and decoded code points are natural
numbers.  Concurrency is modelled by an explicit completion order: the list
of ports in the order their probe futures complete, which is a permutation
of the scanned range.
-/

/-- Exceptions that a per-port UDP probe can raise (all are caught by the
bare except clauses in the source). -/
inductive ProbeError where
  | timeout
  | icmpUnreachable
  | other
deriving DecidableEq, Repr

/-- What one UDP exchange observes: a raised exception, or a reply datagram
given as its byte values. -/
inductive ProbeOutcome where
  | failure (e : ProbeError)
  | reply (data : List Nat)
deriving DecidableEq, Repr

/-- PORT_RANGE = (19130, 19630) from src/Scanner.py line 22. -/
def PORT_RANGE : Nat × Nat := (19130, 19630)

/-- SCAN_TIMEOUT = 1.5 seconds (src/Scanner.py line 23), in milliseconds so
that time stays in Nat. -/
def SCAN_TIMEOUT_MS : Nat := 1500

/-- MAX_WORKERS = 100 from src/Scanner.py line 24. -/
def MAX_WORKERS : Nat := 100

/-- The fixed 16-byte magic marker from check_bedrock_port and
get_server_info. -/
def magic : List Nat :=
  [0x00, 0xff, 0xff, 0x00, 0xfe, 0xfe, 0xfe, 0xfe,
   0xfd, 0xfd, 0xfd, 0xfd, 0x12, 0x34, 0x56, 0x78]

/-- struct.pack with format >Q: the 8 bytes of an unsigned 64-bit integer,
most significant byte first. -/
def pack_u64_be (n : Nat) : List Nat :=
  [n / 2 ^ 56 % 256, n / 2 ^ 48 % 256, n / 2 ^ 40 % 256, n / 2 ^ 32 % 256,
   n / 2 ^ 24 % 256, n / 2 ^ 16 % 256, n / 2 ^ 8 % 256, n % 256]

/-- struct.unpack with format >Q: read 8 bytes most significant first. -/
def unpack_u64_be (bs : List Nat) : Nat :=
  bs.foldl (fun acc b => acc * 256 + b) 0

/-- The outbound datagram built in check_bedrock_port (src/Scanner.py lines
122-127): one id byte 0x01, the packed timestamp, the magic marker, and a
packed zero client GUID, concatenated in that order. -/
def check_probe_packet (timestamp : Nat) : List Nat :=
  [0x01] ++ pack_u64_be timestamp ++ magic ++ pack_u64_be 0

/-- The outbound datagram built in get_server_info (src/Scanner.py lines
149-151), by the same concatenation. -/
def info_probe_packet (timestamp : Nat) : List Nat :=
  [0x01] ++ pack_u64_be timestamp ++ magic ++ pack_u64_be 0

/-- check_bedrock_port (src/Scanner.py lines 115-141).  The socket exchange
is replaced by the oracle; the try/except wrapper turns every exception into
the fall-through return (port, False), and a reply is classified open
exactly when it is non-empty with first byte 0x1c. -/
def check_bedrock_port (oracle : Nat → ProbeOutcome) (port : Nat) :
    Nat × Bool :=
  match oracle port with
  | .failure _ => (port, false)
  | .reply data =>
      if 0 < data.length ∧ data.head? = some 0x1c then (port, true)
      else (port, false)

/-- The collection loop of scan_ports: fold over probe results in completion
order, appending the port component of each result whose flag is true. -/
def collect_results (results : List (Nat × Bool)) : List Nat :=
  results.foldl (fun acc r => if r.2 then acc ++ [r.1] else acc) []

/-- ports_to_scan = range(low, high + 1), generalising the fixed
PORT_RANGE of the source to an arbitrary inclusive range. -/
def ports_to_scan (low high : Nat) : List Nat :=
  List.range' low (high + 1 - low)

/-- scan_ports (src/Scanner.py lines 91-113): one probe per port, results
consumed in the order the futures complete.  The completion argument is that
order, a permutation of the scanned range. -/
def scan_ports (oracle : Nat → ProbeOutcome) (completion : List Nat) :
    List Nat :=
  collect_results (completion.map (check_bedrock_port oracle))

/-- The flag check_bedrock_port reports for one port. -/
def port_open (oracle : Nat → ProbeOutcome) (port : Nat) : Bool :=
  (check_bedrock_port oracle port).2

/-- Byte-at-a-time strict UTF-8 decoder, as performed by bytes.decode with
encoding utf-8: accepts 1- to 4-byte sequences, rejects stray or missing
continuation bytes, overlong encodings, surrogate code points and values
above 0x10FFFF, returning none exactly when decoding raises
UnicodeDecodeError.  The state is none when a lead byte is expected, and
some (need, cp, lo) inside a multi-byte sequence with need continuation
bytes still missing, accumulated value cp, and lo the smallest code point
the sequence length may legally encode (the overlong bound). -/
def utf8_run : Option (Nat × Nat × Nat) → List Nat → Option (List Nat)
  | none, [] => some []
  | some _, [] => none
  | none, b :: bs =>
      if b < 0x80 then (utf8_run none bs).map (fun s => b :: s)
      else if b < 0xC2 then none
      else if b < 0xE0 then utf8_run (some (1, b - 0xC0, 0x80)) bs
      else if b < 0xF0 then utf8_run (some (2, b - 0xE0, 0x800)) bs
      else if b < 0xF5 then utf8_run (some (3, b - 0xF0, 0x10000)) bs
      else none
  | some (need, cp, lo), b :: bs =>
      if 0x80 ≤ b ∧ b < 0xC0 then
        let cp2 := cp * 0x40 + (b - 0x80)
        if need ≤ 1 then
          if lo ≤ cp2 ∧ cp2 ≤ 0x10FFFF ∧
              ¬ (0xD800 ≤ cp2 ∧ cp2 < 0xE000) then
            (utf8_run none bs).map (fun s => cp2 :: s)
          else none
        else utf8_run (some (need - 1, cp2, lo)) bs
      else none

/-- Strict UTF-8 decoding of a byte list into code points, run from the
lead-byte state. -/
def utf8_decode (bs : List Nat) : Option (List Nat) :=
  utf8_run none bs

/-- Latin-1 decoding: every byte maps to the code point of the same value,
so bytes.decode with encoding latin-1 never fails and the errors=ignore
argument drops nothing. -/
def latin1_decode (bs : List Nat) : List Nat := bs

/-- safe_decode (src/Scanner.py lines 181-186): try strict UTF-8, and on
UnicodeDecodeError fall back to latin-1 with errors ignored. -/
def safe_decode (bs : List Nat) : List Nat :=
  match utf8_decode bs with
  | some s => s
  | none => latin1_decode bs

/-- bytes.split(sep): cut the byte list at every occurrence of the
separator, keeping empty pieces, so n separators yield n + 1 pieces and the
empty input yields one empty piece. -/
def bytes_split (sep : Nat) : List Nat → List (List Nat)
  | [] => [[]]
  | b :: rest =>
    if b = sep then [] :: bytes_split sep rest
    else
      match bytes_split sep rest with
      | [] => [[b]]
      | g :: gs => (b :: g) :: gs

/-- The decoded record returned by get_server_info: the nine text fields in
source order plus the probed port. -/
structure ServerInfo where
  edition : List Nat
  motd : List Nat
  protocol : List Nat
  version : List Nat
  players : List Nat
  max_players : List Nat
  server_id : List Nat
  server_name : List Nat
  gamemode : List Nat
  port : Nat
deriving DecidableEq, Repr

/-- The nine text fields of a ServerInfo by their token index, in the order
the source reads tokens 0 through 8. -/
def ServerInfo.fieldAt (info : ServerInfo) : Nat → List Nat
  | 0 => info.edition
  | 1 => info.motd
  | 2 => info.protocol
  | 3 => info.version
  | 4 => info.players
  | 5 => info.max_players
  | 6 => info.server_id
  | 7 => info.server_name
  | 8 => info.gamemode
  | _ => []

/-- get_server_info (src/Scanner.py lines 143-179).  The second UDP
exchange is the oracle outcome; the try/except wrapper turns every
exception into None.  Reading data[0] on an empty reply raises IndexError,
caught by the same wrapper, hence the head? match.  Otherwise: reject a
reply whose first byte is not 0x1c, split the bytes past offset 33 on the
semicolon byte, require at least 10 tokens, and build the record with
safe_decode on tokens 0 through 8. -/
def get_server_info (outcome : ProbeOutcome) (port : Nat) :
    Option ServerInfo :=
  match outcome with
  | .failure _ => none
  | .reply data =>
    match data.head? with
    | none => none
    | some b0 =>
      if b0 ≠ 0x1c then none
      else
        let fields := bytes_split 0x3b (data.drop 33)
        if fields.length < 10 then none
        else some {
          edition := safe_decode (fields.getD 0 [])
          motd := safe_decode (fields.getD 1 [])
          protocol := safe_decode (fields.getD 2 [])
          version := safe_decode (fields.getD 3 [])
          players := safe_decode (fields.getD 4 [])
          max_players := safe_decode (fields.getD 5 [])
          server_id := safe_decode (fields.getD 6 [])
          server_name := safe_decode (fields.getD 7 [])
          gamemode := safe_decode (fields.getD 8 [])
          port := port }

/-- The result scan_server hands to the presentation layer: the active port
list, the optional decoded info, and the measured elapsed time. -/
structure ScanResult where
  activePorts : List Nat
  serverInfo : Option ServerInfo
  scanTime : Int
deriving DecidableEq, Repr

/-- scan_server aggregation (src/Scanner.py lines 63-73): take the clock
before and after the port scan, keep server_info = None unless the active
port list is non-empty, in which case decode from its first element.  The
two clock readings and the info-probe oracle are explicit parameters. -/
def scan_server (probeOracle : Nat → ProbeOutcome)
    (infoOracle : Nat → ProbeOutcome) (completion : List Nat)
    (t0 t1 : Int) : ScanResult :=
  let active := scan_ports probeOracle completion
  { activePorts := active
    serverInfo :=
      match active with
      | [] => none
      | p :: _ => get_server_info (infoOracle p) p
    scanTime := t1 - t0 }

/-- One scheduling step of the bounded thread pool when every task lasts
exactly T: the earliest-free worker (the head of the queue, since equal
durations keep the queue sorted) takes the next task and becomes free T
later. -/
def pool_step (T : Nat) (ws : List Nat) : List Nat :=
  match ws with
  | [] => []
  | w :: rest => rest ++ [w + T]

/-- Worker availability times after n probes of duration T have been
dispatched to W workers that all start free at time 0. -/
def pool_run (T W n : Nat) : List Nat :=
  (pool_step T)^[n] (List.replicate W 0)

/-- Wall-clock completion time of the whole batch: the latest worker
availability time once all n probes are dispatched. -/
def pool_makespan (T W n : Nat) : Nat :=
  (pool_run T W n).foldr max 0

/-- An oracle under which every port replies with the single pong id
byte. -/
def all_pong_oracle : Nat → ProbeOutcome := fun _ => ProbeOutcome.reply [0x1c]

/-- An oracle where only port 19131 answers, with the pong id byte. -/
def single_responder_oracle : Nat → ProbeOutcome := fun q =>
  if q = 19131 then ProbeOutcome.reply [0x1c]
  else ProbeOutcome.failure ProbeError.timeout

/-- A well-formed 10-field status reply: pong id byte, 32 further header
bytes, then the ASCII payload a;b;c;d;e;f;g;h;i;j. -/
def sample_status_reply : List Nat :=
  [0x1c] ++ List.replicate 32 0 ++
  [0x61, 0x3b, 0x62, 0x3b, 0x63, 0x3b, 0x64, 0x3b, 0x65, 0x3b, 0x66, 0x3b,
   0x67, 0x3b, 0x68, 0x3b, 0x69, 0x3b, 0x6a]

theorem collect_results_eq_filter (results : List (Nat × Bool)) :
    collect_results results = (results.filter (·.2)).map (·.1) := by
  have h : ∀ acc : List Nat, results.foldl
      (fun acc r => if r.2 then acc ++ [r.1] else acc) acc =
      acc ++ (results.filter (·.2)).map (·.1) := by
    induction results with
    | nil => simp
    | cons r rs ih =>
        intro acc
        by_cases hr : r.2 = true <;>
          simp [List.foldl_cons, hr, ih, List.filter_cons]
  simpa [collect_results] using h []

theorem scan_ports_eq_filter (oracle : Nat → ProbeOutcome)
    (completion : List Nat) :
    scan_ports oracle completion = completion.filter (port_open oracle) := by
  have hfst : ∀ p, (check_bedrock_port oracle p).1 = p := by
    intro p
    unfold check_bedrock_port
    cases oracle p with
    | failure e => rfl
    | reply data => by_cases h : 0 < data.length ∧ data.head? = some 0x1c <;>
        simp [h]
  rw [scan_ports, collect_results_eq_filter, List.filter_map]
  rw [List.map_map]
  have : ((·.2) ∘ check_bedrock_port oracle) = port_open oracle := rfl
  rw [this]
  calc (completion.filter (port_open oracle)).map
        ((fun x => x.1) ∘ check_bedrock_port oracle)
      = (completion.filter (port_open oracle)).map id :=
        List.map_congr_left (fun p _ => hfst p)
    _ = completion.filter (port_open oracle) := List.map_id _

theorem port_open_iff (oracle : Nat → ProbeOutcome) (p : Nat) :
    port_open oracle p = true ↔
      ∃ data, oracle p = ProbeOutcome.reply data ∧
        data.head? = some 0x1c := by
  unfold port_open check_bedrock_port
  cases h : oracle p with
  | failure e => simp [h]
  | reply data =>
      by_cases hc : 0 < data.length ∧ data.head? = some 0x1c
      · simp only [hc, if_pos]
        exact ⟨fun _ => ⟨data, rfl, hc.2⟩, fun _ => rfl⟩
      · simp only [hc, if_neg, not_false_iff]
        constructor
        · intro hfalse; cases hfalse
        · rintro ⟨d, hd, hhead⟩
          injection hd with hdd
          subst hdd
          exfalso
          apply hc
          refine ⟨?_, hhead⟩
          cases data with
          | nil => simp at hhead
          | cons a t => simp

/-- C1: a scanned port is classified open iff a reply datagram arrives whose
first byte is 0x1c; every probe exception yields the closed classification,
and check_bedrock_port is a total function into pairs, so no per-port
failure reaches its caller. -/
theorem check_bedrock_port_classification (oracle : Nat → ProbeOutcome)
    (port : Nat) :
    ((check_bedrock_port oracle port).2 = true ↔
      ∃ data, oracle port = ProbeOutcome.reply data ∧
        data.head? = some 0x1c) ∧
    (∀ e, oracle port = ProbeOutcome.failure e →
      check_bedrock_port oracle port = (port, false)) := by
  constructor
  · have h := port_open_iff oracle port
    unfold port_open at h
    exact h
  · intro e he
    unfold check_bedrock_port
    rw [he]

theorem check_bedrock_port_classification_witness :
    check_bedrock_port (fun _ => ProbeOutcome.failure ProbeError.timeout)
      19132 = (19132, false) :=
  (check_bedrock_port_classification
    (fun _ => ProbeOutcome.failure ProbeError.timeout) 19132).2
    ProbeError.timeout rfl

/-- C10: check_bedrock_port returns its own port as the first component on
every exit path, and scan_ports over any completion order of the range
yields a duplicate-free active port list. -/
theorem check_bedrock_port_fst_and_scan_nodup :
    (∀ (oracle : Nat → ProbeOutcome) (port : Nat),
      (check_bedrock_port oracle port).1 = port) ∧
    (∀ (oracle : Nat → ProbeOutcome) (low high : Nat)
      (completion : List Nat),
      completion.Perm (ports_to_scan low high) →
      (scan_ports oracle completion).Nodup) := by
  constructor
  · intro oracle port
    unfold check_bedrock_port
    cases oracle port with
    | failure e => rfl
    | reply data =>
        by_cases h : 0 < data.length ∧ data.head? = some 0x1c <;> simp [h]
  · intro oracle low high completion hperm
    rw [scan_ports_eq_filter]
    have hnodup : completion.Nodup :=
      hperm.nodup_iff.mpr (List.nodup_range' low (high + 1 - low))
    exact hnodup.filter _

theorem check_bedrock_port_fst_and_scan_nodup_witness :
    (scan_ports (fun _ => ProbeOutcome.reply [0x1c, 7])
      (ports_to_scan 19130 19131)).Nodup :=
  check_bedrock_port_fst_and_scan_nodup.2
    (fun _ => ProbeOutcome.reply [0x1c, 7]) 19130 19131
    (ports_to_scan 19130 19131) (List.Perm.refl _)

/-- C3 counterexample: the completion order [19131, 19130] is a valid
completion of the two-port range starting at 19130, both probes report
open, and scan_ports returns [19131, 19130], which is not in ascending
port order: the code never sorts. -/
theorem scan_ports_not_ascending_cx :
    List.Perm [19131, 19130] (ports_to_scan 19130 19131) ∧
    scan_ports all_pong_oracle [19131, 19130] = [19131, 19130] ∧
    ¬ List.Sorted (fun a b => a ≤ b)
      (scan_ports all_pong_oracle [19131, 19130]) := by
  refine ⟨?_, by decide, by decide⟩
  decide

/-- C3 amended: the active port list is handed over in probe-completion
order, the open-port subsequence of the order in which the concurrent
probes completed; it is therefore ascending only when the completions
themselves arrive in ascending port order, not unconditionally. -/
theorem scan_ports_completion_order (oracle : Nat → ProbeOutcome)
    (completion : List Nat) :
    scan_ports oracle completion = completion.filter (port_open oracle) ∧
    (List.Sorted (fun a b => a ≤ b) completion →
      List.Sorted (fun a b => a ≤ b) (scan_ports oracle completion)) := by
  refine ⟨scan_ports_eq_filter oracle completion, fun hs => ?_⟩
  rw [scan_ports_eq_filter]
  exact hs.filter _

theorem scan_ports_completion_order_witness :
    List.Sorted (fun a b => a ≤ b)
      (scan_ports all_pong_oracle [19130, 19131]) :=
  (scan_ports_completion_order all_pong_oracle [19130, 19131]).2 (by decide)

/-- C6: under any responder oracle and any completion order of the range,
every reported active port lies in [low, high] and had a reply whose first
byte is the pong id 0x1c; and when exactly one in-range port P replies with
leading byte 0x1c while every other port raises (no response), the scan
returns exactly [P], whatever the completion order. -/
theorem scan_ports_subset_and_single_responder
    (oracle : Nat → ProbeOutcome) (low high : Nat) (completion : List Nat)
    (hperm : completion.Perm (ports_to_scan low high)) :
    (∀ p ∈ scan_ports oracle completion,
      (low ≤ p ∧ p ≤ high) ∧
      ∃ data, oracle p = ProbeOutcome.reply data ∧
        data.head? = some 0x1c) ∧
    (∀ P pong, low ≤ P → P ≤ high →
      oracle P = ProbeOutcome.reply pong → pong.head? = some 0x1c →
      (∀ q, q ≠ P → ∃ e, oracle q = ProbeOutcome.failure e) →
      scan_ports oracle completion = [P]) := by
  constructor
  · intro p hp
    rw [scan_ports_eq_filter] at hp
    have hmem : p ∈ completion := List.mem_of_mem_filter hp
    have hopen : port_open oracle p = true := List.of_mem_filter hp
    have hrange : p ∈ ports_to_scan low high := hperm.mem_iff.mp hmem
    rw [ports_to_scan, List.mem_range'_1] at hrange
    exact ⟨⟨hrange.1, by omega⟩, (port_open_iff oracle p).mp hopen⟩
  · intro P pong hlow hhigh hP hhead hother
    rw [scan_ports_eq_filter]
    have hpred : ∀ q ∈ completion, port_open oracle q = (q == P) := by
      intro q _
      by_cases hqP : q = P
      · subst hqP
        simp only [beq_self_eq_true]
        exact (port_open_iff oracle q).mpr ⟨pong, hP, hhead⟩
      · obtain ⟨e, he⟩ := hother q hqP
        have hfalse : port_open oracle q = false := by
          unfold port_open check_bedrock_port
          rw [he]
        simp [hfalse, hqP]
    rw [List.filter_congr hpred, List.filter_beq]
    have hmemP : P ∈ ports_to_scan low high := by
      rw [ports_to_scan, List.mem_range'_1]
      omega
    have hcount : completion.count P = 1 := by
      rw [hperm.count_eq]
      exact List.count_eq_one_of_mem
        (List.nodup_range' low (high + 1 - low)) hmemP
    rw [hcount, List.replicate_one]

theorem scan_ports_subset_and_single_responder_witness :
    scan_ports single_responder_oracle [19132, 19130, 19131] = [19131] :=
  (scan_ports_subset_and_single_responder single_responder_oracle
    19130 19132 [19132, 19130, 19131] (by decide)).2 19131 [0x1c]
    (by decide) (by decide) (by decide) (by decide)
    (fun q hq => ⟨ProbeError.timeout, by simp [single_responder_oracle, hq]⟩)

theorem safe_decode_utf8 (bs s : List Nat) (h : utf8_decode bs = some s) :
    safe_decode bs = s := by
  unfold safe_decode
  rw [h]

theorem safe_decode_fallback (bs : List Nat) (h : utf8_decode bs = none) :
    safe_decode bs = latin1_decode bs := by
  unfold safe_decode
  rw [h]

theorem utf8_run_some_ne_nil (bs : List Nat) :
    ∀ (st : Nat × Nat × Nat) (s : List Nat),
      utf8_run (some st) bs = some s → s ≠ [] := by
  induction bs with
  | nil =>
      intro st s h
      exact absurd h (by simp [utf8_run])
  | cons b bs ih =>
      intro st s h
      obtain ⟨need, cp, lo⟩ := st
      simp only [utf8_run] at h
      repeat' split at h
      all_goals
        first
          | exact Option.noConfusion h
          | (intro hnil
             subst hnil
             rw [Option.map_eq_some'] at h
             obtain ⟨a, ha, hfa⟩ := h
             exact List.cons_ne_nil _ _ hfa)
          | exact ih _ _ h

theorem utf8_decode_cons_ne_nil (b0 : Nat) (rest s : List Nat)
    (h : utf8_decode (b0 :: rest) = some s) : s ≠ [] := by
  rw [utf8_decode] at h
  simp only [utf8_run] at h
  repeat' split at h
  all_goals
    first
      | exact Option.noConfusion h
      | (intro hnil
         subst hnil
         rw [Option.map_eq_some'] at h
         obtain ⟨a, ha, hfa⟩ := h
         exact List.cons_ne_nil _ _ hfa)
      | exact utf8_run_some_ne_nil rest _ s h

/-- C8: safe_decode is a total function on byte lists; it returns the UTF-8
decoding whenever strict UTF-8 decoding succeeds, falls back to the
always-successful latin-1 decoding exactly when UTF-8 decoding fails, and
on every non-empty input (in particular one holding invalid UTF-8 bytes)
it returns a non-empty string. -/
theorem safe_decode_total_and_nonempty :
    (∀ bs s, utf8_decode bs = some s → safe_decode bs = s) ∧
    (∀ bs, utf8_decode bs = none → safe_decode bs = latin1_decode bs) ∧
    (∀ bs, bs ≠ [] → safe_decode bs ≠ []) := by
  refine ⟨safe_decode_utf8, safe_decode_fallback, ?_⟩
  intro bs hbs
  cases hu : utf8_decode bs with
  | none => rw [safe_decode_fallback bs hu]; exact hbs
  | some s =>
      rw [safe_decode_utf8 bs s hu]
      cases bs with
      | nil => exact absurd rfl hbs
      | cons b0 rest => exact utf8_decode_cons_ne_nil b0 rest s hu

theorem safe_decode_total_and_nonempty_witness :
    safe_decode [0xff, 0x41] ≠ [] ∧ safe_decode [0xff, 0x41] = [0xff, 0x41] :=
  ⟨safe_decode_total_and_nonempty.2.2 [0xff, 0x41] (by decide),
   safe_decode_total_and_nonempty.2.1 [0xff, 0x41] (by decide)⟩

theorem get_server_info_reply_eq (t : List Nat) (port : Nat)
    (hlen : ¬ (bytes_split 0x3b ((0x1c :: t).drop 33)).length < 10) :
    get_server_info (ProbeOutcome.reply (0x1c :: t)) port =
      some {
        edition :=
          safe_decode ((bytes_split 0x3b ((0x1c :: t).drop 33)).getD 0 [])
        motd :=
          safe_decode ((bytes_split 0x3b ((0x1c :: t).drop 33)).getD 1 [])
        protocol :=
          safe_decode ((bytes_split 0x3b ((0x1c :: t).drop 33)).getD 2 [])
        version :=
          safe_decode ((bytes_split 0x3b ((0x1c :: t).drop 33)).getD 3 [])
        players :=
          safe_decode ((bytes_split 0x3b ((0x1c :: t).drop 33)).getD 4 [])
        max_players :=
          safe_decode ((bytes_split 0x3b ((0x1c :: t).drop 33)).getD 5 [])
        server_id :=
          safe_decode ((bytes_split 0x3b ((0x1c :: t).drop 33)).getD 6 [])
        server_name :=
          safe_decode ((bytes_split 0x3b ((0x1c :: t).drop 33)).getD 7 [])
        gamemode :=
          safe_decode ((bytes_split 0x3b ((0x1c :: t).drop 33)).getD 8 [])
        port := port } := by
  simp only [get_server_info, List.head?_cons]
  rw [if_neg (by simp), if_neg hlen]

/-- C2: on a reply headed by 0x1c whose bytes past offset 33 split on the
semicolon byte into exactly 10 tokens, get_server_info returns a record
carrying the probed port whose nine semantic text fields are the decodings
of tokens 0 through 8, verbatim whenever the token is valid UTF-8; on a
reply yielding fewer than 10 tokens it returns none, never a partial
record. -/
theorem get_server_info_roundtrip (data : List Nat) (port : Nat) :
    (data.head? = some 0x1c →
      (bytes_split 0x3b (data.drop 33)).length = 10 →
      ∃ info, get_server_info (ProbeOutcome.reply data) port = some info ∧
        info.port = port ∧
        ∀ i s, i < 9 →
          utf8_decode ((bytes_split 0x3b (data.drop 33)).getD i []) =
            some s →
          info.fieldAt i = s) ∧
    ((bytes_split 0x3b (data.drop 33)).length < 10 →
      get_server_info (ProbeOutcome.reply data) port = none) := by
  constructor
  · intro hhead hlen
    cases data with
    | nil => simp at hhead
    | cons b0 t =>
        have hb0 : b0 = 0x1c := by simpa using hhead
        subst hb0
        refine ⟨_, get_server_info_reply_eq t port (by omega), rfl, ?_⟩
        intro i s hi hs
        have hsd := safe_decode_utf8 _ _ hs
        interval_cases i <;> simpa [ServerInfo.fieldAt] using hsd
  · intro hlt
    cases data with
    | nil => rfl
    | cons b0 t =>
        by_cases hb0 : b0 = 0x1c
        · subst hb0
          simp only [get_server_info, List.head?_cons]
          rw [if_neg (by simp), if_pos hlt]
        · simp only [get_server_info, List.head?_cons]
          rw [if_pos hb0]

theorem get_server_info_roundtrip_witness :
    ∃ info, get_server_info (ProbeOutcome.reply sample_status_reply) 19131 =
      some info ∧ info.port = 19131 ∧
      ∀ i s, i < 9 →
        utf8_decode
          ((bytes_split 0x3b (sample_status_reply.drop 33)).getD i []) =
          some s →
        info.fieldAt i = s :=
  (get_server_info_roundtrip sample_status_reply 19131).1
    (by decide) (by decide)

/-- C4: get_server_info is a total function into optional records: every
probe exception yields none, a reply whose first byte is not 0x1c (or that
is empty, where reading byte 0 raises) yields none, a payload shorter than
34 bytes yields none, a payload splitting into fewer than 10 tokens yields
none, and in every case the result is either none or a complete record
carrying the probed port. -/
theorem get_server_info_never_raises (port : Nat) :
    (∀ e, get_server_info (ProbeOutcome.failure e) port = none) ∧
    (∀ data, data.head? ≠ some 0x1c →
      get_server_info (ProbeOutcome.reply data) port = none) ∧
    (∀ data, data.length < 34 →
      get_server_info (ProbeOutcome.reply data) port = none) ∧
    (∀ data, (bytes_split 0x3b (data.drop 33)).length < 10 →
      get_server_info (ProbeOutcome.reply data) port = none) ∧
    (∀ outcome, get_server_info outcome port = none ∨
      ∃ info, get_server_info outcome port = some info ∧
        info.port = port) := by
  have hfew : ∀ data : List Nat,
      (bytes_split 0x3b (data.drop 33)).length < 10 →
      get_server_info (ProbeOutcome.reply data) port = none := by
    intro data hlt
    cases data with
    | nil => rfl
    | cons b0 t =>
        by_cases hb0 : b0 = 0x1c
        · subst hb0
          simp only [get_server_info, List.head?_cons]
          rw [if_neg (by simp), if_pos hlt]
        · simp only [get_server_info, List.head?_cons]
          rw [if_pos hb0]
  refine ⟨fun e => rfl, ?_, ?_, hfew, ?_⟩
  · intro data hne
    cases data with
    | nil => rfl
    | cons b0 t =>
        have hb0 : b0 ≠ 0x1c := by
          intro hb0
          exact hne (by simp [hb0])
        simp only [get_server_info, List.head?_cons]
        rw [if_pos hb0]
  · intro data hshort
    apply hfew
    have hdrop : data.drop 33 = [] :=
      List.drop_eq_nil_of_le (by omega)
    rw [hdrop]
    decide
  · intro outcome
    cases outcome with
    | failure e => exact Or.inl rfl
    | reply data =>
        cases data with
        | nil => exact Or.inl rfl
        | cons b0 t =>
            by_cases hb0 : b0 = 0x1c
            · subst hb0
              by_cases hlt : (bytes_split 0x3b ((0x1c :: t).drop 33)).length < 10
              · exact Or.inl (hfew _ hlt)
              · exact Or.inr ⟨_, get_server_info_reply_eq t port hlt, rfl⟩
            · refine Or.inl ?_
              simp only [get_server_info, List.head?_cons]
              rw [if_pos hb0]

theorem get_server_info_never_raises_witness :
    get_server_info (ProbeOutcome.reply [0x05, 0x1c, 0x3b]) 19132 = none ∧
    get_server_info (ProbeOutcome.reply [0x1c, 0x3b]) 19132 = none ∧
    get_server_info (ProbeOutcome.failure ProbeError.timeout) 19132 = none :=
  ⟨(get_server_info_never_raises 19132).2.1 [0x05, 0x1c, 0x3b] (by decide),
   (get_server_info_never_raises 19132).2.2.1 [0x1c, 0x3b] (by decide),
   (get_server_info_never_raises 19132).1 ProbeError.timeout⟩

/-- C5: both outbound probe datagrams are the same 33-byte layout: id byte
0x01, 8-byte big-endian timestamp (unpack of the packed field recovers the
timestamp), the fixed 16-byte magic marker, and an 8-byte client GUID of
zero; all bytes are below 256, and within the 64-bit range distinct
timestamps give distinct packets, so each probe's freshly built packet
varies with its timestamp. -/
theorem probe_packet_layout (ts : Nat) :
    check_probe_packet ts = info_probe_packet ts ∧
    (check_probe_packet ts).length = 33 ∧
    (check_probe_packet ts).take 1 = [0x01] ∧
    ((check_probe_packet ts).drop 1).take 8 = pack_u64_be ts ∧
    ((check_probe_packet ts).drop 9).take 16 = magic ∧
    (check_probe_packet ts).drop 25 = List.replicate 8 0 ∧
    (∀ b ∈ pack_u64_be ts, b < 256) ∧
    (ts < 2 ^ 64 → unpack_u64_be (pack_u64_be ts) = ts) ∧
    (∀ ts2, ts < 2 ^ 64 → ts2 < 2 ^ 64 →
      check_probe_packet ts = check_probe_packet ts2 → ts = ts2) := by
  have hru : ∀ u : Nat, u < 2 ^ 64 →
      unpack_u64_be (pack_u64_be u) = u := by
    intro u hu
    simp only [pack_u64_be, unpack_u64_be, List.foldl_cons, List.foldl_nil]
    omega
  refine ⟨rfl, rfl, rfl, rfl, rfl, rfl, ?_, hru ts, ?_⟩
  · intro b hb
    simp only [pack_u64_be, List.mem_cons, List.not_mem_nil, or_false] at hb
    rcases hb with rfl | rfl | rfl | rfl | rfl | rfl | rfl | rfl <;> omega
  · intro ts2 h1 h2 heq
    have htake : ∀ u : Nat,
        ((check_probe_packet u).drop 1).take 8 = pack_u64_be u :=
      fun u => rfl
    have hp : pack_u64_be ts = pack_u64_be ts2 :=
      (htake ts).symm.trans
        ((congrArg (fun l => (l.drop 1).take 8) heq).trans (htake ts2))
    calc ts = unpack_u64_be (pack_u64_be ts) := (hru ts h1).symm
      _ = unpack_u64_be (pack_u64_be ts2) := by rw [hp]
      _ = ts2 := hru ts2 h2

theorem probe_packet_layout_witness :
    unpack_u64_be (pack_u64_be 1700000000) = 1700000000 ∧
    (check_probe_packet 1700000000).length = 33 :=
  ⟨(probe_packet_layout 1700000000).2.2.2.2.2.2.2.1 (by norm_num),
   (probe_packet_layout 1700000000).2.1⟩

/-- C7: when no port responds (every probe raises), the aggregated result is
well formed: activePorts is empty, serverInfo is none without the decoder
being consulted (the source guards it behind a non-empty port list), and
the elapsed time is non-negative whenever the second clock reading is not
earlier than the first; scan_server is a total function, so these are
outcomes, not errors. -/
theorem scan_server_no_responsive
    (probeOracle infoOracle : Nat → ProbeOutcome) (completion : List Nat)
    (t0 t1 : Int)
    (hquiet : ∀ p, ∃ e, probeOracle p = ProbeOutcome.failure e) :
    (scan_server probeOracle infoOracle completion t0 t1).activePorts
        = [] ∧
    (scan_server probeOracle infoOracle completion t0 t1).serverInfo
        = none ∧
    (t0 ≤ t1 →
      0 ≤ (scan_server probeOracle infoOracle completion t0 t1).scanTime) := by
  have hempty : scan_ports probeOracle completion = [] := by
    rw [scan_ports_eq_filter]
    apply List.filter_eq_nil_iff.mpr
    intro p _
    obtain ⟨e, he⟩ := hquiet p
    unfold port_open check_bedrock_port
    rw [he]
    simp
  refine ⟨?_, ?_, ?_⟩
  · simp [scan_server, hempty]
  · simp [scan_server, hempty]
  · intro ht
    simp only [scan_server]
    omega

theorem scan_server_no_responsive_witness :
    (scan_server (fun _ => ProbeOutcome.failure ProbeError.timeout)
      (fun _ => ProbeOutcome.failure ProbeError.timeout)
      (ports_to_scan 19130 19135) 5 9).activePorts = [] ∧
    (scan_server (fun _ => ProbeOutcome.failure ProbeError.timeout)
      (fun _ => ProbeOutcome.failure ProbeError.timeout)
      (ports_to_scan 19130 19135) 5 9).serverInfo = none ∧
    0 ≤ (scan_server (fun _ => ProbeOutcome.failure ProbeError.timeout)
      (fun _ => ProbeOutcome.failure ProbeError.timeout)
      (ports_to_scan 19130 19135) 5 9).scanTime :=
  have h := scan_server_no_responsive
    (fun _ => ProbeOutcome.failure ProbeError.timeout)
    (fun _ => ProbeOutcome.failure ProbeError.timeout)
    (ports_to_scan 19130 19135) 5 9
    (fun _ => ⟨ProbeError.timeout, rfl⟩)
  ⟨h.1, h.2.1, h.2.2 (by norm_num)⟩

theorem foldr_max_le (l : List Nat) (c : Nat) (h : ∀ x ∈ l, x ≤ c) :
    l.foldr max 0 ≤ c := by
  induction l with
  | nil => exact Nat.zero_le c
  | cons a l ih =>
      simp only [List.foldr_cons]
      exact Nat.max_le.mpr
        ⟨h a (List.mem_cons_self a l), ih fun x hx => h x (List.mem_cons_of_mem a hx)⟩

theorem pool_run_closed_form (T W : Nat) (hW : 0 < W) (n : Nat) :
    pool_run T W n = (List.range W).map (fun j => T * ((n + j) / W)) := by
  induction n with
  | zero =>
      unfold pool_run
      rw [Function.iterate_zero_apply]
      symm
      apply List.eq_replicate_iff.mpr
      refine ⟨by simp, ?_⟩
      intro b hb
      simp only [List.mem_map, List.mem_range] at hb
      obtain ⟨j, hj, rfl⟩ := hb
      rw [Nat.zero_add, Nat.div_eq_of_lt hj, Nat.mul_zero]
  | succ n ih =>
      have hstep : pool_run T W (n + 1) = pool_step T (pool_run T W n) :=
        Function.iterate_succ_apply' (pool_step T) n _
      rw [hstep, ih]
      obtain ⟨V, rfl⟩ : ∃ V, W = V + 1 := ⟨W - 1, by omega⟩
      nth_rewrite 1 [List.range_succ_eq_map]
      rw [List.map_cons, List.map_map]
      simp only [pool_step]
      rw [List.range_succ, List.map_append, List.map_singleton]
      congr 1
      · apply List.map_congr_left
        intro j hj
        simp only [Function.comp_apply]
        congr 2
        omega
      · congr 1
        rw [Nat.add_zero,
          show n + 1 + V = n + (V + 1) by omega,
          Nat.add_div_right _ (by omega), Nat.mul_succ]

theorem pool_makespan_le (T W n : Nat) (hW : 0 < W) :
    pool_makespan T W n ≤ ((n + W - 1) / W) * T := by
  unfold pool_makespan
  rw [pool_run_closed_form T W hW n]
  apply foldr_max_le
  intro x hx
  simp only [List.mem_map, List.mem_range] at hx
  obtain ⟨j, hj, rfl⟩ := hx
  have hdiv : (n + j) / W ≤ (n + W - 1) / W :=
    Nat.div_le_div_right (by omega)
  calc T * ((n + j) / W) ≤ T * ((n + W - 1) / W) :=
        Nat.mul_le_mul_left T hdiv
    _ = ((n + W - 1) / W) * T := Nat.mul_comm _ _

/-- C9: with every probe lasting the full SCAN_TIMEOUT (the all-timeout
worst case), the FIFO pool of W workers dispatches n probes within
ceil(n / W) * SCAN_TIMEOUT of wall time; at the source constants, the
501-port range is bounded by 6 timeouts, strictly below the sequential
501 * SCAN_TIMEOUT. -/
theorem scan_wall_clock_bound :
    (∀ T W n, 0 < W →
      pool_makespan T W n ≤ ((n + W - 1) / W) * T) ∧
    pool_makespan SCAN_TIMEOUT_MS MAX_WORKERS
        (PORT_RANGE.2 + 1 - PORT_RANGE.1) ≤
      ((PORT_RANGE.2 + 1 - PORT_RANGE.1 + MAX_WORKERS - 1) / MAX_WORKERS) *
        SCAN_TIMEOUT_MS ∧
    ((PORT_RANGE.2 + 1 - PORT_RANGE.1 + MAX_WORKERS - 1) / MAX_WORKERS) *
        SCAN_TIMEOUT_MS <
      (PORT_RANGE.2 + 1 - PORT_RANGE.1) * SCAN_TIMEOUT_MS := by
  refine ⟨fun T W n hW => pool_makespan_le T W n hW, ?_, ?_⟩
  · exact pool_makespan_le SCAN_TIMEOUT_MS MAX_WORKERS
      (PORT_RANGE.2 + 1 - PORT_RANGE.1) (by decide)
  · decide

theorem scan_wall_clock_bound_witness :
    pool_makespan 1500 4 10 ≤ ((10 + 4 - 1) / 4) * 1500 :=
  scan_wall_clock_bound.1 1500 4 10 (by decide)
